import Mathlib

/-!
Verification development for the Content Fetch-and-Compare Engine
(`app.py` of the f1sherFM/Kapersky-test repository).

The Python source is shallowly embedded: texts are lists of characters
(`Txt`), pure functions become Lean functions, the network is an oracle
argument, and the per-row batch loop of `main` is a fold producing the
record list handed to the reporting collaborators.
-/

set_option maxRecDepth 10000

namespace App

/-- Texts are modelled as lists of unicode characters (Python `str`). -/
abbrev Txt := List Char

/-- Python's whitespace class for `str.strip` / `re.sub(r'\s+', ...)`,
modelled on its ASCII core: space, tab, newline, carriage return,
vertical tab, form feed. -/
def pyIsSpace (c : Char) : Bool :=
  decide (c.toNat = 32 ∨ c.toNat = 9 ∨ c.toNat = 10 ∨ c.toNat = 13 ∨
          c.toNat = 11 ∨ c.toNat = 12)

/-- Python `str.lower`, modelled on the Basic Latin range: `A`-`Z`
(codes 65-90) map to `a`-`z` (codes 97-122), everything else is fixed. -/
def pyToLower (c : Char) : Char :=
  if 65 ≤ c.toNat ∧ c.toNat ≤ 90 then Char.ofNat (c.toNat + 32) else c

/-- Python `str.strip()`: drop the maximal whitespace run from both ends. -/
def pyStrip (l : Txt) : Txt :=
  List.rdropWhile pyIsSpace (List.dropWhile pyIsSpace l)

/-- Worker for `collapseWS`.  The flag records whether the previous
character belonged to a whitespace run whose single `' '` replacement has
already been emitted. -/
def collapseGo : Bool → Txt → Txt
  | _, [] => []
  | inRun, c :: cs =>
    if pyIsSpace c then
      if inRun then collapseGo true cs else ' ' :: collapseGo true cs
    else c :: collapseGo false cs

/-- Python `re.sub(r'\s+', ' ', text)`: every maximal whitespace run is
replaced by a single space. -/
def collapseWS (l : Txt) : Txt := collapseGo false l

/-- The inner `normalize` of `compare_texts` (`app.py` line 62):
`re.sub(r'\s+', ' ', text.strip().lower())`. -/
def normalize (t : Txt) : Txt := collapseWS ((pyStrip t).map pyToLower)

/-- Python `text.split('\n')`: split at every newline, keeping empty
pieces. -/
def splitNL : Txt → List Txt
  | [] => [[]]
  | c :: cs =>
    let r := splitNL cs
    if c = '\n' then [] :: r
    else
      match r with
      | [] => [[c]]
      | w :: ws => (c :: w) :: ws

/-- `[line.strip() for line in text.split('\n') if line.strip()]`
(`app.py` lines 68-69): split on newlines, trim each line, discard the
blank ones. -/
def pyLines (t : Txt) : List Txt :=
  ((splitNL t).map pyStrip).filter (fun l => !l.isEmpty)

/-- Python substring containment `sub in big` on strings. -/
def containsSub (big sub : Txt) : Bool :=
  sub.isPrefixOf big ||
    match big with
    | [] => false
    | _ :: rest => containsSub rest sub

/-! ### difflib.SequenceMatcher(None, a, b)

`compare_texts` scores similarity with
`difflib.SequenceMatcher(None, normalize(a), normalize(b)).ratio()`.
The matcher is embedded below: `findLongestMatch` returns the longest
matching block (earliest in `a`, then earliest in `b`, on ties), the
recursive divide-and-conquer of `get_matching_blocks` is summed by
`matchedTotal`, and `ratio = 2*M/T`.  Since the `isjunk` argument is
`None`, the junk set is empty; the `autojunk` heuristic only fires for
`len(b) >= 200` and is modelled by `popularB`.  Recursions that CPython
writes as `while` loops are given explicit fuel arguments, always called
with enough fuel to run to completion. -/

/-- A matching block `(i, j, k)`: `a[i:i+k] == b[j:j+k]`. -/
structure Block where
  i : Nat
  j : Nat
  k : Nat
deriving DecidableEq

/-- The `autojunk` popularity filter of `SequenceMatcher.__chain_b`:
for `len(b) >= 200`, characters occurring more than `len(b)//100 + 1`
times are left out of `b2j`. -/
def popularB (b : Txt) (c : Char) : Bool :=
  decide (200 ≤ b.length) && decide (b.length / 100 + 1 < b.count c)

/-- Length of the matching run at `(i, j)` staying below `ahi`/`bhi`,
restricted to positions of `b` present in `b2j` (not autojunk-popular),
as found by the `j2len` loop of `find_longest_match`.  `fuel ≥ ahi - i`
suffices. -/
def runCap (a b : Txt) (ahi bhi : Nat) : Nat → Nat → Nat → Nat
  | 0, _, _ => 0
  | fuel + 1, i, j =>
    if i < ahi ∧ j < bhi ∧ a.getD i ' ' = b.getD j ' ' ∧
        popularB b (b.getD j ' ') = false then
      runCap a b ahi bhi fuel (i + 1) (j + 1) + 1
    else 0

/-- The core double loop of `find_longest_match`: scan `i` then `j`
ascending, keep a strictly better `k` only — hence the earliest maximal
block wins. -/
def flmCore (a b : Txt) (alo ahi blo bhi : Nat) : Block :=
  (List.range' alo (ahi - alo)).foldl
    (fun best i =>
      (List.range' blo (bhi - blo)).foldl
        (fun bst j =>
          let k := runCap a b ahi bhi (ahi - i) i j
          if bst.k < k then ⟨i, j, k⟩ else bst)
        best)
    ⟨alo, blo, 0⟩

/-- First extension loop of `find_longest_match`: grow the block to the
left while characters match (with `isjunk = None` the `bjunk` set is
empty, so the only condition left is character equality).  `fuel ≥ i`
suffices. -/
def extendLeft (a b : Txt) (alo blo : Nat) : Nat → Nat → Nat → Nat → Block
  | 0, i, j, k => ⟨i, j, k⟩
  | fuel + 1, i, j, k =>
    if alo < i ∧ blo < j ∧ a.getD (i - 1) ' ' = b.getD (j - 1) ' ' then
      extendLeft a b alo blo fuel (i - 1) (j - 1) (k + 1)
    else ⟨i, j, k⟩

/-- Second extension loop of `find_longest_match`: grow the block to the
right while characters match.  `fuel ≥ ahi` suffices. -/
def extendRight (a b : Txt) (ahi bhi i j : Nat) : Nat → Nat → Nat
  | 0, k => k
  | fuel + 1, k =>
    if i + k < ahi ∧ j + k < bhi ∧ a.getD (i + k) ' ' = b.getD (j + k) ' ' then
      extendRight a b ahi bhi i j fuel (k + 1)
    else k

/-- `find_longest_match(alo, ahi, blo, bhi)`.  The two final
junk-extension loops of CPython are no-ops because `bjunk` is empty. -/
def findLongestMatch (a b : Txt) (alo ahi blo bhi : Nat) : Block :=
  let c := flmCore a b alo ahi blo bhi
  let l := extendLeft a b alo blo c.i c.i c.j c.k
  ⟨l.i, l.j, extendRight a b ahi bhi l.i l.j ahi l.k⟩

/-- Total size of all matching blocks: the divide-and-conquer of
`get_matching_blocks`, summed (the sort/merge post-pass of CPython does
not change the sum).  `fuel ≥ (ahi-alo)+(bhi-blo)` suffices. -/
def matchedTotal (a b : Txt) : Nat → Nat → Nat → Nat → Nat → Nat
  | 0, _, _, _, _ => 0
  | fuel + 1, alo, ahi, blo, bhi =>
    let m := findLongestMatch a b alo ahi blo bhi
    if m.k = 0 then 0
    else
      matchedTotal a b fuel alo m.i blo m.j + m.k +
        matchedTotal a b fuel (m.i + m.k) ahi (m.j + m.k) bhi

/-- Matched character total `M` over the whole of `a` and `b`. -/
def smMatched (a b : Txt) : Nat :=
  matchedTotal a b (a.length + b.length + 1) 0 a.length 0 b.length

/-- `SequenceMatcher.ratio() = 2*M / (len(a)+len(b))`, and `1.0` when
both are empty (`_calculate_ratio`). -/
def smRatio (a b : Txt) : ℚ :=
  if a.length + b.length = 0 then 1
  else (2 * smMatched a b : ℚ) / ((a.length : ℚ) + (b.length : ℚ))

/-- Round half to even at integer precision (Python `round`). -/
def pyRoundHalfEven (x : ℚ) : ℤ :=
  let f := ⌊x⌋
  let r := x - (f : ℚ)
  if r < 1 / 2 then f
  else if 1 / 2 < r then f + 1
  else if f % 2 = 0 then f else f + 1

/-- Python `round(x, 2)`, in exact rational arithmetic. -/
def pyRound2 (x : ℚ) : ℚ := (pyRoundHalfEven (100 * x) : ℚ) / 100

/-- The `ComparisonOutcome` dictionary returned by `compare_texts`. -/
structure Comparison where
  similarity : ℚ
  original_length : Nat
  lib_length : Nat
  missing_lines_count : Nat
  extra_lines_count : Nat
  example_missing : List Txt
  example_extra : List Txt
deriving DecidableEq

/-- `missing` of `compare_texts` (line 71): original lines whose
normalized form is not a substring of the normalized candidate text. -/
def missingLines (original_text lib_text : Txt) : List Txt :=
  (pyLines original_text).filter
    (fun line => !containsSub (normalize lib_text) (normalize line))

/-- `extra` of `compare_texts` (line 72): candidate lines whose
normalized form is not a substring of the normalized original text. -/
def extraLines (original_text lib_text : Txt) : List Txt :=
  (pyLines lib_text).filter
    (fun line => !containsSub (normalize original_text) (normalize line))

/-- `compare_texts(original_text, lib_text)` (`app.py` lines 59-82).
Python's `list(set(missing))[:3]` samples 3 deduplicated examples in an
unspecified set-iteration order; `List.dedup` is the deterministic
refinement used here. -/
def compare_texts (original_text lib_text : Txt) : Comparison :=
  { similarity :=
      pyRound2 (smRatio (normalize original_text) (normalize lib_text) * 100)
    original_length := original_text.length
    lib_length := lib_text.length
    missing_lines_count := (missingLines original_text lib_text).length
    extra_lines_count := (extraLines original_text lib_text).length
    example_missing := (missingLines original_text lib_text).dedup.take 3
    example_extra := (extraLines original_text lib_text).dedup.take 3 }

/-- The three similarity bands of `generate_ai_analysis`. -/
inductive Verdict where
  | high
  | moderate
  | low
deriving DecidableEq

/-- The similarity banding of `generate_ai_analysis` (`app.py` lines
89-95): `if similarity > 80 ... elif similarity > 50 ... else ...`. -/
def generate_ai_analysis_verdict (comparison : Comparison) : Verdict :=
  if 80 < comparison.similarity then .high
  else if 50 < comparison.similarity then .moderate
  else .low

example : normalize "  Ab\t\nC  d ".data = "ab c d".data := by decide

example : pyLines "Line A.\n \nLine B.".data = ["Line A.".data, "Line B.".data] := by decide

example : containsSub "hello world".data "lo wo".data = true := by decide

example : containsSub "hello".data "xyz".data = false := by decide

/-- Rounding an integer-valued rational is the identity. -/
theorem pyRoundHalfEven_intCast (n : ℤ) : pyRoundHalfEven (n : ℚ) = n := by
  unfold pyRoundHalfEven
  norm_num

/-- When `100 * x` is the integer `m`, Python `round(x, 2)` returns
`m / 100`. -/
theorem pyRound2_eq_of_eq_int (x : ℚ) (m : ℤ) (h : 100 * x = (m : ℚ)) :
    pyRound2 x = (m : ℚ) / 100 := by
  unfold pyRound2
  rw [h, pyRoundHalfEven_intCast]

/-- Evaluation helper: the similarity field, written through `smMatched`. -/
theorem similarity_eval (o c : Txt) (M la lb : Nat) (m : ℤ)
    (hM : smMatched (normalize o) (normalize c) = M)
    (hla : (normalize o).length = la) (hlb : (normalize c).length = lb)
    (hne : la + lb ≠ 0)
    (hm : (20000 * M : ℚ) / (la + lb) = (m : ℚ)) :
    (compare_texts o c).similarity = (m : ℚ) / 100 := by
  show pyRound2 (smRatio (normalize o) (normalize c) * 100) = (m : ℚ) / 100
  apply pyRound2_eq_of_eq_int
  rw [smRatio, hM, hla, hlb, if_neg hne, ← hm]
  ring

example : (compare_texts "aba".data "babba".data).similarity = 75 := by
  have h := similarity_eval "aba".data "babba".data 3 3 5 7500
    (by decide) (by decide) (by decide) (by decide) (by norm_num)
  rw [h]; norm_num

example : (compare_texts "babba".data "aba".data).similarity = 50 := by
  have h := similarity_eval "babba".data "aba".data 2 5 3 5000
    (by decide) (by decide) (by decide) (by decide) (by norm_num)
  rw [h]; norm_num

example : (compare_texts "ab".data "ab".data).similarity = 100 := by
  have h := similarity_eval "ab".data "ab".data 2 2 2 10000
    (by decide) (by decide) (by decide) (by decide) (by norm_num)
  rw [h]; norm_num

example :
    (compare_texts "Line A.\nLine B.\nLine C.".data "Line A.\nLine C.".data).missing_lines_count = 1 := by
  decide

/-! ### Fetcher: `extract_text_from_url` and its tenacity retry decorator

The network is an oracle `att : Nat → Except Txt Txt` mapping the attempt
number to either the visible text of the fetched page (everything up to
`article_body.get_text(separator='\n', strip=True)`, which lives in
`requests`/`BeautifulSoup`) or the message of the exception raised by
`requests.get`/`raise_for_status` (transport failure, timeout, non-2xx
status).  The function body wraps everything in `try/except Exception`,
so its own exception type is `Empty`: it can only return normally. -/

/-- The `"Ошибка"` marker `main` tests with `startswith` (line 456). -/
def errMarker : Txt := "Ошибка".data

/-- The `f"Ошибка: {str(e)}"` error text built in the `except` branch
(line 57). -/
def errText (e : Txt) : Txt := "Ошибка: ".data ++ e

/-- Worker for `collapseNL`; the flag records whether we are inside a
newline run whose `'\n\n'` replacement has already been emitted. -/
def collapseNLGo : Bool → Txt → Txt
  | _, [] => []
  | true, c :: cs =>
    if c = '\n' then collapseNLGo true cs else c :: collapseNLGo false cs
  | false, c :: cs =>
    if c = '\n' ∧ cs.head? = some '\n' then
      '\n' :: '\n' :: collapseNLGo true cs
    else c :: collapseNLGo false cs

/-- `re.sub(r'\n{2,}', '\n\n', text)` (line 53): collapse every run of
two or more newlines to exactly two. -/
def collapseNL (l : Txt) : Txt := collapseNLGo false l

/-- The post-processed page text returned on the success path of
`extract_text_from_url` (line 53):
`re.sub(r'\n{2,}', '\n\n', text).strip()`. -/
def postprocessPage (text : Txt) : Txt := pyStrip (collapseNL text)

/-- The `try/except` body of `extract_text_from_url` (lines 32-57) at a
given attempt: the `except Exception` clause turns any exception into
the in-band string `f"Ошибка: {str(e)}"`, so the body itself never
raises — its exception type is `Empty`. -/
def fetchBody (att : Nat → Except Txt Txt) (n : Nat) : Except Empty Txt :=
  match att n with
  | .ok page => .ok (postprocessPage page)
  | .error e => .ok (errText e)

/-- `wait_exponential(multiplier=1, min=4, max=10)` of tenacity: after
the `attemptNumber`-th failed attempt, wait
`clamp(1 * 2^attemptNumber, 4, 10)` time units. -/
def waitExponential_1_4_10 (attemptNumber : Nat) : ℚ :=
  max 4 (min ((2 : ℚ) ^ attemptNumber) 10)

/-- The tenacity `@retry(stop=stop_after_attempt(3), wait=...)`
decorator (line 29): run the body; by default it retries only when the
body raises, sleeping the configured wait between attempts, and stops
after 3 attempts, re-raising the last exception.  Returns the result,
the number of attempts performed and the list of waits slept. -/
def tenacityRetry3 {E A : Type} (wait : Nat → ℚ) (body : Nat → Except E A) :
    Except E A × Nat × List ℚ :=
  match body 1 with
  | .ok a => (.ok a, 1, [])
  | .error _ =>
    match body 2 with
    | .ok a => (.ok a, 2, [wait 1])
    | .error _ =>
      match body 3 with
      | .ok a => (.ok a, 3, [wait 1, wait 2])
      | .error e => (.error e, 3, [wait 1, wait 2])

/-- The decorated `extract_text_from_url` run against an attempt oracle:
result, attempts performed, waits slept. -/
def extractRun (att : Nat → Except Txt Txt) : Txt × Nat × List ℚ :=
  let r := tenacityRetry3 waitExponential_1_4_10 (fetchBody att)
  ((match r.1 with
    | .ok t => t
    | .error e => nomatch e),
   r.2)

/-- `extract_text_from_url(url)` as called by `main`: a single URL-keyed
network oracle serves every attempt. -/
def extract_text_from_url (oracle : Txt → Except Txt Txt) (url : Txt) : Txt :=
  (extractRun (fun _ => oracle url)).1

/-! ### Record Builder and the batch loops of `main` -/

/-- One input row of the CSV: the `URL` and `lib_text` columns. -/
structure RowInput where
  url : Txt
  lib_text : Txt

/-- A `ComparisonRecord` appended to `results`.  `ok` is the
success-dictionary shape built by the first loop (lines 465-475), with
example lists; `okJoined` is the shape built by the second loop (lines
519-529), whose example fields are `" | ".join(...)` strings; `err` is
the error dictionary. -/
inductive Rec where
  | ok (url : Txt) (c : Comparison)
  | okJoined (url : Txt) (c : Comparison) (exMissing exExtra : Txt)
  | err (url : Txt) (msg : Txt)

/-- Whether a record is a Failure (`status == 'error'`). -/
def Rec.isErr : Rec → Bool
  | .err _ _ => true
  | _ => false

/-- Effects of processing one row: the appended record if any, the
number of `extract_text_from_url` calls (network fetches), the number of
`compare_texts` calls, and whether the skip message was logged. -/
structure RowEffect where
  record : Option Rec
  fetches : Nat
  compares : Nat
  skipLogged : Bool

/-- Body of the first batch loop of `main` (lines 445-483) for one row:
skip on empty candidate text, fetch, short-circuit on the in-band error
marker, otherwise compare and build a success record.  The
`except Exception` fallback of lines 477-483 is unreachable in the
model: no modelled operation raises. -/
def processRow (oracle : Txt → Except Txt Txt) (row : RowInput) : RowEffect :=
  let url := pyStrip row.url
  let lib := pyStrip row.lib_text
  if lib.isEmpty then ⟨none, 0, 0, true⟩
  else
    let original := extract_text_from_url oracle url
    if errMarker.isPrefixOf original then ⟨some (.err url original), 1, 0, false⟩
    else ⟨some (.ok url (compare_texts original lib)), 1, 1, false⟩

/-- `" | ".join(xs)`. -/
def joinBar (xs : List Txt) : Txt := List.intercalate " | ".data xs

/-- Body of the second batch loop of `main` (lines 496-532) for one row:
same skip/fetch/error logic, but the success record joins the example
lists with `" | "`. -/
def processRow2 (oracle : Txt → Except Txt Txt) (row : RowInput) : RowEffect :=
  let url := pyStrip row.url
  let lib := pyStrip row.lib_text
  if lib.isEmpty then ⟨none, 0, 0, true⟩
  else
    let original := extract_text_from_url oracle url
    if errMarker.isPrefixOf original then ⟨some (.err url original), 1, 0, false⟩
    else
      let c := compare_texts original lib
      ⟨some (.okJoined url c (joinBar c.example_missing) (joinBar c.example_extra)), 1, 1, false⟩

/-- Run one batch loop over the rows: the records appended to `results`
in order, and the total number of network fetches issued. -/
def runLoop (step : RowInput → RowEffect) : List RowInput → List Rec × Nat
  | [] => ([], 0)
  | r :: rs =>
    let e := step r
    let (recs, f) := runLoop step rs
    (e.record.toList ++ recs, e.fetches + f)

/-- Outcome of one whole `main` run: the `results` list as handed to
`save_results` / `generate_comprehensive_report` / `generate_html_report`
(line 486-488), the `results` list at the end of `main` after the second
loop appended to it, and the total number of network fetches issued. -/
structure BatchTrace where
  reported : List Rec
  finalResults : List Rec
  fetches : Nat

/-- `main()` (lines 428-532): abort the whole run when the input CSV
cannot be loaded (the outer `except`, line 490), otherwise run the first
loop, hand its records to the reporting collaborators, then run the
leftover second loop, which appends to `results` again. -/
def mainRun (input : Except Txt (List RowInput)) (oracle : Txt → Except Txt Txt) :
    Except Txt BatchTrace :=
  match input with
  | .error e => .error e
  | .ok rows =>
    let r1 := runLoop (processRow oracle) rows
    let r2 := runLoop (processRow2 oracle) rows
    .ok ⟨r1.1, r1.1 ++ r2.1, r1.2 + r2.2⟩

/-- Rows that the loops do not skip: non-empty stripped candidate text. -/
def nonSkipped (rows : List RowInput) : List RowInput :=
  rows.filter (fun r => !(pyStrip r.lib_text).isEmpty)

/-- Fetch count of a batch outcome (0 when the run aborted). -/
def traceFetches : Except Txt BatchTrace → Nat
  | .ok t => t.fetches
  | .error _ => 0

/-- Number of records handed to reporting (0 when the run aborted). -/
def traceReportedCount : Except Txt BatchTrace → Nat
  | .ok t => t.reported.length
  | .error _ => 0

/-! ### Character-level lemmas about `pyToLower` and `pyIsSpace` -/

theorem char_toNat_ofNat {n : Nat} (h : n < 55296) : (Char.ofNat n).toNat = n := by
  rw [Char.ofNat, dif_pos (Or.inl h)]
  rfl

theorem pyToLower_toNat_of_upper {c : Char}
    (h : 65 ≤ c.toNat ∧ c.toNat ≤ 90) : (pyToLower c).toNat = c.toNat + 32 := by
  rw [pyToLower, if_pos h]
  exact char_toNat_ofNat (by omega)

theorem pyToLower_of_not_upper {c : Char}
    (h : ¬(65 ≤ c.toNat ∧ c.toNat ≤ 90)) : pyToLower c = c := by
  rw [pyToLower, if_neg h]

theorem pyToLower_idem (c : Char) : pyToLower (pyToLower c) = pyToLower c := by
  by_cases h : 65 ≤ c.toNat ∧ c.toNat ≤ 90
  · have h2 := pyToLower_toNat_of_upper h
    apply pyToLower_of_not_upper
    omega
  · rw [pyToLower_of_not_upper h]
    exact pyToLower_of_not_upper h

theorem pyIsSpace_iff {c : Char} :
    pyIsSpace c = true ↔
      (c.toNat = 32 ∨ c.toNat = 9 ∨ c.toNat = 10 ∨ c.toNat = 13 ∨
       c.toNat = 11 ∨ c.toNat = 12) := by
  rw [pyIsSpace, decide_eq_true_iff]

theorem pyIsSpace_pyToLower (c : Char) : pyIsSpace (pyToLower c) = pyIsSpace c := by
  by_cases h : 65 ≤ c.toNat ∧ c.toNat ≤ 90
  · have h2 := pyToLower_toNat_of_upper h
    rw [pyIsSpace, pyIsSpace, decide_eq_decide]
    omega
  · rw [pyToLower_of_not_upper h]

theorem pyToLower_of_space {c : Char} (h : pyIsSpace c = true) : pyToLower c = c := by
  apply pyToLower_of_not_upper
  rw [pyIsSpace_iff] at h
  omega

/-! ### Lemmas about `collapseGo` -/

theorem collapseGo_false_cons_space {c : Char} {cs : Txt}
    (h : pyIsSpace c = true) :
    collapseGo false (c :: cs) = ' ' :: collapseGo true cs := by
  simp [collapseGo, h]

theorem collapseGo_true_cons_space {c : Char} {cs : Txt}
    (h : pyIsSpace c = true) :
    collapseGo true (c :: cs) = collapseGo true cs := by
  simp [collapseGo, h]

theorem collapseGo_cons_nonspace {b : Bool} {c : Char} {cs : Txt}
    (h : pyIsSpace c = false) :
    collapseGo b (c :: cs) = c :: collapseGo false cs := by
  simp [collapseGo, h]

theorem collapseGo_false_ne_nil {l : Txt} (h : l ≠ []) :
    collapseGo false l ≠ [] := by
  cases l with
  | nil => exact absurd rfl h
  | cons c cs =>
    by_cases hc : pyIsSpace c = true
    · rw [collapseGo_false_cons_space hc]
      exact List.cons_ne_nil _ _
    · rw [collapseGo_cons_nonspace (by simpa using hc)]
      exact List.cons_ne_nil _ _

theorem collapseGo_true_eq_nil_iff {l : Txt} :
    collapseGo true l = [] ↔ ∀ c ∈ l, pyIsSpace c = true := by
  induction l with
  | nil => simp [collapseGo]
  | cons c cs ih =>
    by_cases hc : pyIsSpace c = true
    · rw [collapseGo_true_cons_space hc]
      simp [hc, ih]
    · rw [collapseGo_cons_nonspace (by simpa using hc)]
      simp [hc]

theorem head?_collapseGo_false (l : Txt) :
    (collapseGo false l).head? =
      l.head?.map (fun c => if pyIsSpace c then ' ' else c) := by
  cases l with
  | nil => rfl
  | cons c cs =>
    by_cases hc : pyIsSpace c = true
    · rw [collapseGo_false_cons_space hc]
      simp [hc]
    · rw [collapseGo_cons_nonspace (by simpa using hc)]
      simp [hc]

theorem mem_collapseGo {x : Char} : ∀ {b : Bool} {l : Txt},
    x ∈ collapseGo b l → x = ' ' ∨ x ∈ l := by
  intro b l
  induction l generalizing b with
  | nil => simp [collapseGo]
  | cons c cs ih =>
    intro hx
    by_cases hc : pyIsSpace c = true
    · cases b with
      | true =>
        rw [collapseGo_true_cons_space hc] at hx
        rcases ih hx with h | h
        · exact Or.inl h
        · exact Or.inr (List.mem_cons_of_mem _ h)
      | false =>
        rw [collapseGo_false_cons_space hc] at hx
        simp only [List.mem_cons] at hx
        rcases hx with h | hx
        · exact Or.inl h
        · rcases ih hx with h | h
          · exact Or.inl h
          · exact Or.inr (List.mem_cons_of_mem _ h)
    · rw [collapseGo_cons_nonspace (by simpa using hc)] at hx
      simp only [List.mem_cons] at hx
      rcases hx with h | hx
      · exact Or.inr (List.mem_cons.mpr (Or.inl h))
      · rcases ih hx with h | h
        · exact Or.inl h
        · exact Or.inr (List.mem_cons_of_mem _ h)

theorem getLast?_collapseGo {x : Char} (hx : pyIsSpace x = false) :
    ∀ (l : Txt) (b : Bool), l.getLast? = some x →
      (collapseGo b l).getLast? = some x := by
  intro l
  induction l with
  | nil => intro b h; simp at h
  | cons c cs ih =>
    intro b hlast
    cases cs with
    | nil =>
      simp only [List.getLast?_singleton, Option.some.injEq] at hlast
      subst hlast
      rw [collapseGo_cons_nonspace hx]
      rfl
    | cons d ds =>
      rw [List.getLast?_cons_cons] at hlast
      have hxm : x ∈ d :: ds := by
        have hgl := List.getLast?_eq_getLast (d :: ds) (by simp)
        rw [hgl] at hlast
        have hx' : List.getLast (d :: ds) (by simp) = x := Option.some.inj hlast
        exact hx' ▸ List.getLast_mem _
      by_cases hc : pyIsSpace c = true
      · have hne : collapseGo true (d :: ds) ≠ [] := by
          rw [Ne, collapseGo_true_eq_nil_iff]
          intro hall
          rw [hall x hxm] at hx
          exact Bool.true_eq_false.mp hx
        cases b with
        | true =>
          rw [collapseGo_true_cons_space hc]
          exact ih true hlast
        | false =>
          rw [collapseGo_false_cons_space hc]
          obtain ⟨y, ys, hys⟩ := List.exists_cons_of_ne_nil hne
          have hres := ih true hlast
          rw [hys] at hres ⊢
          rw [List.getLast?_cons_cons]
          exact hres
      · rw [collapseGo_cons_nonspace (by simpa using hc)]
        have hne : collapseGo false (d :: ds) ≠ [] :=
          collapseGo_false_ne_nil (by simp)
        obtain ⟨y, ys, hys⟩ := List.exists_cons_of_ne_nil hne
        have hres := ih false hlast
        rw [hys] at hres ⊢
        rw [List.getLast?_cons_cons]
        exact hres

theorem collapseGo_idem (l : Txt) :
    collapseGo false (collapseGo false l) = collapseGo false l ∧
    collapseGo false (collapseGo true l) = collapseGo true l ∧
    collapseGo true (collapseGo true l) = collapseGo true l := by
  induction l with
  | nil => exact ⟨rfl, rfl, rfl⟩
  | cons c cs ih =>
    obtain ⟨ihff, ihft, ihtt⟩ := ih
    by_cases hc : pyIsSpace c = true
    · refine ⟨?_, ?_, ?_⟩
      · rw [collapseGo_false_cons_space hc,
          collapseGo_false_cons_space (show pyIsSpace ' ' = true by decide), ihtt]
      · rw [collapseGo_true_cons_space hc, ihft]
      · rw [collapseGo_true_cons_space hc, ihtt]
    · have hc' : pyIsSpace c = false := by simpa using hc
      refine ⟨?_, ?_, ?_⟩ <;>
        rw [collapseGo_cons_nonspace hc', collapseGo_cons_nonspace hc', ihff]

/-! ### Lemmas about `pyStrip` -/

theorem head?_pyStrip_not_space {l : Txt} {x : Char}
    (h : (pyStrip l).head? = some x) : pyIsSpace x = false := by
  obtain ⟨t, ht⟩ := List.rdropWhile_prefix pyIsSpace (List.dropWhile pyIsSpace l)
  have hd : (List.dropWhile pyIsSpace l).head? = some x := by
    rw [← ht]
    rw [pyStrip] at h
    cases hres : List.rdropWhile pyIsSpace (List.dropWhile pyIsSpace l) with
    | nil => rw [hres] at h; simp at h
    | cons y ys =>
      rw [hres] at h
      simp only [List.head?_cons, Option.some.injEq] at h
      subst h
      simp
  have hnot := List.head?_dropWhile_not pyIsSpace l
  rw [hd] at hnot
  exact hnot

theorem getLast_pyStrip_not_space {l : Txt} (h : pyStrip l ≠ []) :
    pyIsSpace ((pyStrip l).getLast h) = false := by
  have := List.rdropWhile_last_not pyIsSpace (List.dropWhile pyIsSpace l) h
  simpa using this

theorem pyStrip_eq_self {l : Txt}
    (hhead : ∀ x, l.head? = some x → pyIsSpace x = false)
    (hlast : ∀ x, l.getLast? = some x → pyIsSpace x = false) :
    pyStrip l = l := by
  have hdrop : List.dropWhile pyIsSpace l = l := by
    cases l with
    | nil => rfl
    | cons c cs =>
      have := hhead c (by simp)
      exact List.dropWhile_cons_of_neg (by simp [this])
  rw [pyStrip, hdrop]
  rw [List.rdropWhile_eq_self_iff]
  intro hl
  have := hlast (l.getLast hl) (List.getLast?_eq_getLast l hl)
  simp [this]

theorem map_eq_self_of_forall {α : Type} {f : α → α} :
    ∀ {l : List α}, (∀ c ∈ l, f c = c) → l.map f = l
  | [], _ => rfl
  | c :: cs, h => by
    rw [List.map_cons, h c (by simp),
      map_eq_self_of_forall (fun x hx => h x (List.mem_cons_of_mem _ hx))]

/-! ### Idempotence of `normalize` -/

theorem normalize_head?_not_space {t : Txt} {x : Char}
    (h : (normalize t).head? = some x) : pyIsSpace x = false := by
  rw [normalize, collapseWS, head?_collapseGo_false, Option.map_eq_some',
    List.head?_map] at h
  obtain ⟨c, hc, hcx⟩ := h
  rw [Option.map_eq_some'] at hc
  obtain ⟨d, hd, hdc⟩ := hc
  have hd' : pyIsSpace d = false := head?_pyStrip_not_space hd
  have hc' : pyIsSpace c = false := by
    rw [← hdc, pyIsSpace_pyToLower]
    exact hd'
  rw [hc'] at hcx
  simp only [Bool.false_eq_true, if_false] at hcx
  rw [← hcx]
  exact hc'

theorem normalize_getLast?_not_space {t : Txt} {x : Char}
    (h : (normalize t).getLast? = some x) : pyIsSpace x = false := by
  by_cases hnil : pyStrip t = []
  · rw [normalize, hnil] at h
    simp [collapseWS, collapseGo] at h
  · have hlast := getLast_pyStrip_not_space hnil
    set y := (pyStrip t).getLast hnil with hy
    have hys : (pyStrip t).getLast? = some y := List.getLast?_eq_getLast _ hnil
    have hmap : ((pyStrip t).map pyToLower).getLast? = some (pyToLower y) := by
      rw [List.getLast?_map, hys]
      rfl
    have hyl : pyIsSpace (pyToLower y) = false := by
      rw [pyIsSpace_pyToLower]
      exact hlast
    have := getLast?_collapseGo hyl ((pyStrip t).map pyToLower) false hmap
    rw [normalize, collapseWS, this] at h
    rw [← Option.some.inj h]
    exact hyl

theorem mem_normalize_lower_fixed {t : Txt} {c : Char} (h : c ∈ normalize t) :
    pyToLower c = c := by
  rw [normalize, collapseWS] at h
  rcases mem_collapseGo h with rfl | h
  · rfl
  · rw [List.mem_map] at h
    obtain ⟨d, _, rfl⟩ := h
    exact pyToLower_idem d

/-! ### `containsSub` is Python substring containment -/

theorem containsSub_eq_true_iff :
    ∀ (big sub : Txt), containsSub big sub = true ↔ sub <:+: big := by
  intro big
  induction big with
  | nil =>
    intro sub
    cases sub with
    | nil => simp [containsSub]
    | cons c cs => simp [containsSub, List.isPrefixOf]
  | cons h rest ih =>
    intro sub
    rw [containsSub]
    simp only [Bool.or_eq_true, List.isPrefixOf_iff_prefix, ih,
      List.infix_cons_iff]

/-! ### Lemmas about the batch loops -/

theorem processRow_skip (oracle : Txt → Except Txt Txt) (r : RowInput)
    (h : (pyStrip r.lib_text).isEmpty = true) :
    processRow oracle r = ⟨none, 0, 0, true⟩ := by
  simp [processRow, h]

theorem processRow2_skip (oracle : Txt → Except Txt Txt) (r : RowInput)
    (h : (pyStrip r.lib_text).isEmpty = true) :
    processRow2 oracle r = ⟨none, 0, 0, true⟩ := by
  simp [processRow2, h]

theorem processRow_nonskip (oracle : Txt → Except Txt Txt) (r : RowInput)
    (h : (pyStrip r.lib_text).isEmpty = false) :
    (processRow oracle r).record.isSome = true ∧
      (processRow oracle r).fetches = 1 := by
  rw [processRow]
  simp only [h, Bool.false_eq_true, if_false]
  split <;> simp

theorem processRow2_nonskip (oracle : Txt → Except Txt Txt) (r : RowInput)
    (h : (pyStrip r.lib_text).isEmpty = false) :
    (processRow2 oracle r).record.isSome = true ∧
      (processRow2 oracle r).fetches = 1 := by
  rw [processRow2]
  simp only [h, Bool.false_eq_true, if_false]
  split <;> simp

theorem runLoop_spec (step : RowInput → RowEffect)
    (h0 : ∀ r, (pyStrip r.lib_text).isEmpty = true →
      (step r).record = none ∧ (step r).fetches = 0)
    (h1 : ∀ r, (pyStrip r.lib_text).isEmpty = false →
      (step r).record.isSome = true ∧ (step r).fetches = 1) :
    ∀ rows, (runLoop step rows).1.length = (nonSkipped rows).length ∧
      (runLoop step rows).2 = (nonSkipped rows).length := by
  intro rows
  induction rows with
  | nil => exact ⟨rfl, rfl⟩
  | cons r rs ih =>
    rw [runLoop]
    by_cases he : (pyStrip r.lib_text).isEmpty = true
    · obtain ⟨hrec, hf⟩ := h0 r he
      simp only [nonSkipped, List.filter_cons, he, Bool.not_true, if_false,
        Bool.false_eq_true]
      simp only [hrec, hf, Option.toList_none, List.nil_append, List.length_nil]
      rw [← nonSkipped]
      exact ⟨ih.1, by simpa using ih.2⟩
    · have he' : (pyStrip r.lib_text).isEmpty = false := by simpa using he
      obtain ⟨hrec, hf⟩ := h1 r he'
      obtain ⟨rec, hrec'⟩ := Option.isSome_iff_exists.mp hrec
      simp only [nonSkipped, List.filter_cons, he', Bool.not_false, if_true]
      simp only [hrec', hf, Option.toList_some, List.singleton_append,
        List.length_cons]
      rw [← nonSkipped]
      exact ⟨by simpa using ih.1, by simpa [Nat.add_comm] using ih.2⟩

/-! ### Lemmas about the fetch path -/

theorem fetchBody_never_raises (att : Nat → Except Txt Txt) (n : Nat) :
    ∃ t, fetchBody att n = .ok t := by
  rw [fetchBody]
  cases att n with
  | ok page => exact ⟨_, rfl⟩
  | error e => exact ⟨_, rfl⟩

theorem extractRun_single_attempt (att : Nat → Except Txt Txt) :
    (extractRun att).2.1 = 1 ∧ (extractRun att).2.2 = [] := by
  obtain ⟨t, ht⟩ := fetchBody_never_raises att 1
  rw [extractRun, tenacityRetry3, ht]
  exact ⟨rfl, rfl⟩

theorem extract_of_error (oracle : Txt → Except Txt Txt) (url m : Txt)
    (h : oracle url = .error m) :
    extract_text_from_url oracle url = errText m := by
  rw [extract_text_from_url, extractRun, tenacityRetry3,
    show fetchBody (fun _ => oracle url) 1 = .ok (errText m) from by
      rw [fetchBody, h]]

theorem extract_of_ok (oracle : Txt → Except Txt Txt) (url page : Txt)
    (h : oracle url = .ok page) :
    extract_text_from_url oracle url = postprocessPage page := by
  rw [extract_text_from_url, extractRun, tenacityRetry3,
    show fetchBody (fun _ => oracle url) 1 = .ok (postprocessPage page) from by
      rw [fetchBody, h]]

theorem errMarker_isPrefixOf_errText (m : Txt) :
    errMarker.isPrefixOf (errText m) = true := by
  rw [List.isPrefixOf_iff_prefix]
  rw [errText,
    show ("Ошибка: ".data : Txt) = errMarker ++ ": ".data from by decide,
    List.append_assoc]
  exact List.prefix_append _ _

theorem processRow_fetch_error (oracle : Txt → Except Txt Txt) (r : RowInput)
    (m : Txt) (ho : oracle (pyStrip r.url) = .error m)
    (hne : (pyStrip r.lib_text).isEmpty = false) :
    (processRow oracle r).record = some (.err (pyStrip r.url) (errText m)) := by
  rw [processRow]
  simp only [hne, Bool.false_eq_true, if_false]
  rw [extract_of_error _ _ _ ho]
  simp [errMarker_isPrefixOf_errText]

theorem processRow_marker_page (oracle : Txt → Except Txt Txt) (r : RowInput)
    (page : Txt) (ho : oracle (pyStrip r.url) = .ok page)
    (hmark : errMarker.isPrefixOf (postprocessPage page) = true)
    (hne : (pyStrip r.lib_text).isEmpty = false) :
    (processRow oracle r).record =
      some (.err (pyStrip r.url) (postprocessPage page)) := by
  rw [processRow]
  simp only [hne, Bool.false_eq_true, if_false]
  rw [extract_of_ok _ _ _ ho]
  simp [hmark]

/-! ### The claims -/

/-- Claim C1: the claim states that a permanently failing fetch performs
exactly 3 attempts with strictly increasing waits before a terminal fetch
error.  On the code this fails: the `try/except Exception` inside
`extract_text_from_url` converts every failure into a normal return, so
the tenacity `@retry` decorator sees a success — against any permanently
failing oracle the run performs exactly 1 attempt, sleeps no waits, and
returns the in-band string `"Ошибка: ..."` instead of raising. -/
theorem claim1_single_attempt_no_retry (att : Nat → Except Txt Txt) (m : Txt)
    (hfail : ∀ n, att n = .error m) :
    (extractRun att).2.1 = 1 ∧ (extractRun att).2.2 = [] ∧
      (extractRun att).1 = errText m := by
  rw [extractRun, tenacityRetry3,
    show fetchBody att 1 = .ok (errText m) from by rw [fetchBody, hfail 1]]
  exact ⟨rfl, rfl, rfl⟩

/-- Witness for C1: a target failing every attempt with `404 Client
Error` is fetched exactly once, with no backoff waits, yielding the
in-band error string. -/
theorem claim1_witness :
    (extractRun (fun _ => .error "404 Client Error".data)).2.1 = 1 ∧
    (extractRun (fun _ => .error "404 Client Error".data)).2.2 = [] ∧
    (extractRun (fun _ => .error "404 Client Error".data)).1 =
      errText "404 Client Error".data :=
  claim1_single_attempt_no_retry _ "404 Client Error".data (fun _ => rfl)

/-- Claim C2: the claim states that one batch run issues exactly one
network fetch per non-skipped row and hands exactly one record per such
row to reporting.  The record half holds, but `main` contains a second,
leftover processing loop after the reports are written (lines 496-532),
so every non-skipped row is fetched twice: total fetches are `2 * n`
while the collection handed to reporting has `n` records. -/
theorem claim2_double_fetch_single_report (oracle : Txt → Except Txt Txt)
    (rows : List RowInput) :
    traceFetches (mainRun (.ok rows) oracle) = 2 * (nonSkipped rows).length ∧
    traceReportedCount (mainRun (.ok rows) oracle) = (nonSkipped rows).length := by
  have h1 := runLoop_spec (processRow oracle)
    (fun r h => by rw [processRow_skip oracle r h]; exact ⟨rfl, rfl⟩)
    (fun r h => processRow_nonskip oracle r h) rows
  have h2 := runLoop_spec (processRow2 oracle)
    (fun r h => by rw [processRow2_skip oracle r h]; exact ⟨rfl, rfl⟩)
    (fun r h => processRow2_nonskip oracle r h) rows
  constructor
  · show (runLoop (processRow oracle) rows).2 +
      (runLoop (processRow2 oracle) rows).2 = _
    rw [h1.2, h2.2]
    omega
  · exact h1.1

/-- Claim C3: the claim states that the similarity score is symmetric in
its two arguments.  Counterexample: for `A = "aba"`, `B = "babba"` the
matcher finds 3 matched characters one way (`similarity 75.0`) and only
2 the other way (`similarity 50.0`), exactly as CPython's
`difflib.SequenceMatcher` does on these inputs. -/
theorem claim3_counterexample :
    (compare_texts "aba".data "babba".data).similarity ≠
      (compare_texts "babba".data "aba".data).similarity := by
  have h1 : (compare_texts "aba".data "babba".data).similarity = 75 := by
    have h := similarity_eval "aba".data "babba".data 3 3 5 7500
      (by decide) (by decide) (by decide) (by decide) (by norm_num)
    rw [h]; norm_num
  have h2 : (compare_texts "babba".data "aba".data).similarity = 50 := by
    have h := similarity_eval "babba".data "aba".data 2 5 3 5000
      (by decide) (by decide) (by decide) (by decide) (by norm_num)
    rw [h]; norm_num
  rw [h1, h2]
  norm_num

/-- Claim C3, amended: the similarity score is not symmetric in general
(the matcher is order-dependent); it is symmetric whenever the two
normalized texts coincide — in particular for identical inputs. -/
theorem claim3_symmetry_on_equal_normalization (A B : Txt)
    (h : normalize A = normalize B) :
    (compare_texts A B).similarity = (compare_texts B A).similarity := by
  show pyRound2 (smRatio (normalize A) (normalize B) * 100) =
    pyRound2 (smRatio (normalize B) (normalize A) * 100)
  rw [h]

/-- Witness for the amended C3: `"A  b"` and `"a b"` normalize to the
same text, so their similarity is symmetric. -/
theorem claim3_witness :
    normalize "A  b".data = normalize "a b".data ∧
    (compare_texts "A  b".data "a b".data).similarity =
      (compare_texts "a b".data "A  b".data).similarity :=
  ⟨by decide, claim3_symmetry_on_equal_normalization _ _ (by decide)⟩

/-- Claim C4: classification works at line granularity on the raw texts:
an original line is missing exactly when its normalized form is not a
substring of the normalized candidate text, a candidate line is extra
exactly when its normalized form is not a substring of the normalized
original text, and consequently every reported missing example's
normalized form is absent from the normalized candidate and every extra
example's from the normalized original. -/
theorem claim4_line_classification (o c : Txt) :
    (∀ line, line ∈ missingLines o c ↔
      line ∈ pyLines o ∧ ¬(normalize line <:+: normalize c)) ∧
    (∀ line, line ∈ extraLines o c ↔
      line ∈ pyLines c ∧ ¬(normalize line <:+: normalize o)) ∧
    (∀ e ∈ (compare_texts o c).example_missing,
      ¬(normalize e <:+: normalize c)) ∧
    (∀ e ∈ (compare_texts o c).example_extra,
      ¬(normalize e <:+: normalize o)) := by
  have hmem : ∀ (x y line : Txt),
      line ∈ (pyLines x).filter
        (fun l => !containsSub (normalize y) (normalize l)) ↔
      line ∈ pyLines x ∧ ¬(normalize line <:+: normalize y) := by
    intro x y line
    simp only [List.mem_filter, Bool.not_eq_true', Bool.eq_false_iff, Ne,
      containsSub_eq_true_iff]
  refine ⟨hmem o c, hmem c o, ?_, ?_⟩
  · intro e he
    have hm : e ∈ missingLines o c := List.mem_dedup.mp (List.take_subset _ _ he)
    exact ((hmem o c e).mp hm).2
  · intro e he
    have hm : e ∈ extraLines o c := List.mem_dedup.mp (List.take_subset _ _ he)
    exact ((hmem c o e).mp hm).2

/-- Witness for C4: with original `"a\nb"` and candidate `"a"`, the line
`"b"` is reported as a missing example and its normalized form is indeed
not a substring of the normalized candidate. -/
theorem claim4_witness :
    "b".data ∈ (compare_texts "a\nb".data "a".data).example_missing ∧
      ¬(normalize "b".data <:+: normalize "a".data) :=
  ⟨by decide, (claim4_line_classification "a\nb".data "a".data).2.2.1
    "b".data (by decide)⟩

/-- Claim C5: `normalize` — collapse every whitespace run to a single
space, trim both ends, lowercase — is idempotent:
`normalize (normalize s) = normalize s` for every string `s`. -/
theorem claim5_normalize_idempotent (s : Txt) :
    normalize (normalize s) = normalize s := by
  have h1 : pyStrip (normalize s) = normalize s :=
    pyStrip_eq_self (fun x hx => normalize_head?_not_space hx)
      (fun x hx => normalize_getLast?_not_space hx)
  have h2 : (normalize s).map pyToLower = normalize s :=
    map_eq_self_of_forall (fun c hc => mem_normalize_lower_fixed hc)
  conv_lhs => rw [normalize, h1, h2]
  rw [normalize, collapseWS]
  exact (collapseGo_idem ((pyStrip s).map pyToLower)).1

/-- Claim C6: the reported `missing_lines_count`/`extra_lines_count` are
the lengths of the non-deduplicated classification lists, while each
example list has at most 3 elements, contains no duplicates, and is
drawn from the deduplicated classification list — a repeated line is
counted every time but appears at most once among the examples. -/
theorem claim6_counts_and_examples (o c : Txt) :
    (compare_texts o c).missing_lines_count = (missingLines o c).length ∧
    (compare_texts o c).extra_lines_count = (extraLines o c).length ∧
    (compare_texts o c).example_missing.length ≤ 3 ∧
    (compare_texts o c).example_extra.length ≤ 3 ∧
    (compare_texts o c).example_missing.Nodup ∧
    (compare_texts o c).example_extra.Nodup ∧
    (compare_texts o c).example_missing ⊆ (missingLines o c).dedup ∧
    (compare_texts o c).example_extra ⊆ (extraLines o c).dedup := by
  refine ⟨rfl, rfl, ?_, ?_, ?_, ?_, ?_, ?_⟩
  · show ((missingLines o c).dedup.take 3).length ≤ 3
    rw [List.length_take]
    exact min_le_left _ _
  · show ((extraLines o c).dedup.take 3).length ≤ 3
    rw [List.length_take]
    exact min_le_left _ _
  · exact List.Sublist.nodup (List.take_sublist _ _) (List.nodup_dedup _)
  · exact List.Sublist.nodup (List.take_sublist _ _) (List.nodup_dedup _)
  · exact List.take_subset _ _
  · exact List.take_subset _ _

/-- Claim C7: the claim states the moderate verdict covers similarity 50
to 80 inclusive of 50.  Counterexample: at similarity exactly 50 the
code takes the `else` branch (`elif similarity > 50` is false) and emits
the low verdict, not the moderate one. -/
theorem claim7_counterexample :
    generate_ai_analysis_verdict ⟨50, 0, 0, 0, 0, [], []⟩ ≠ Verdict.moderate := by
  have h : (⟨50, 0, 0, 0, 0, [], []⟩ : Comparison).similarity = 50 := rfl
  rw [generate_ai_analysis_verdict, h, if_neg (by norm_num),
    if_neg (by norm_num)]
  decide

/-- Claim C7, amended: the verdict is high for similarity above 80,
moderate for similarity above 50 and at most 80 (exclusive of 50), and
low for similarity at most 50. -/
theorem claim7_bands (c : Comparison) :
    (80 < c.similarity → generate_ai_analysis_verdict c = .high) ∧
    (50 < c.similarity → c.similarity ≤ 80 →
      generate_ai_analysis_verdict c = .moderate) ∧
    (c.similarity ≤ 50 → generate_ai_analysis_verdict c = .low) := by
  refine ⟨fun h => ?_, fun h h' => ?_, fun h => ?_⟩ <;>
    rw [generate_ai_analysis_verdict]
  · rw [if_pos h]
  · rw [if_neg (by linarith), if_pos h]
  · rw [if_neg (by linarith), if_neg (by linarith)]

/-- Witness for the amended C7: similarity 90 is high, 60 is moderate,
50 is low. -/
theorem claim7_witness :
    generate_ai_analysis_verdict ⟨90, 0, 0, 0, 0, [], []⟩ = Verdict.high ∧
    generate_ai_analysis_verdict ⟨60, 0, 0, 0, 0, [], []⟩ = Verdict.moderate ∧
    generate_ai_analysis_verdict ⟨50, 1, 1, 0, 0, [], []⟩ = Verdict.low :=
  ⟨(claim7_bands _).1 (by show (80 : ℚ) < 90; norm_num),
   (claim7_bands _).2.1 (by show (50 : ℚ) < 60; norm_num)
     (by show (60 : ℚ) ≤ 80; norm_num),
   (claim7_bands _).2.2 (by show (50 : ℚ) ≤ 50; norm_num)⟩

/-- Claim C8: a row whose candidate text is empty (after stripping) is
skipped before reaching the core in both batch loops: the skip is
logged, no record — in particular no Failure — is appended, no fetch is
issued and the comparator is never invoked. -/
theorem claim8_empty_candidate_skipped (oracle : Txt → Except Txt Txt)
    (r : RowInput) (h : (pyStrip r.lib_text).isEmpty = true) :
    processRow oracle r = ⟨none, 0, 0, true⟩ ∧
      processRow2 oracle r = ⟨none, 0, 0, true⟩ :=
  ⟨processRow_skip oracle r h, processRow2_skip oracle r h⟩

/-- Witness for C8: a row with whitespace-only candidate text is
skipped: no record, no fetch, no compare, skip logged. -/
theorem claim8_witness :
    processRow (fun _ => .ok []) ⟨"u".data, "   ".data⟩ = ⟨none, 0, 0, true⟩ :=
  (claim8_empty_candidate_skipped (fun _ => .ok []) ⟨"u".data, "   ".data⟩
    (by decide)).1

/-- Claim C9: every per-URL error is caught locally and becomes a
Failure record carrying the error message, the batch loop always
continues (one record per non-skipped row), a loaded batch always runs
to completion, and only a failure to load the input source halts the
run. -/
theorem claim9_per_url_errors_contained :
    (∀ (oracle : Txt → Except Txt Txt) (rows : List RowInput),
      (runLoop (processRow oracle) rows).1.length = (nonSkipped rows).length) ∧
    (∀ (oracle : Txt → Except Txt Txt) (r : RowInput) (m : Txt),
      oracle (pyStrip r.url) = .error m →
      (pyStrip r.lib_text).isEmpty = false →
      (processRow oracle r).record = some (.err (pyStrip r.url) (errText m))) ∧
    (∀ (oracle : Txt → Except Txt Txt) (rows : List RowInput),
      ∃ tr, mainRun (.ok rows) oracle = .ok tr) ∧
    (∀ (oracle : Txt → Except Txt Txt) (e : Txt),
      mainRun (.error e) oracle = .error e) :=
  ⟨fun oracle rows =>
    (runLoop_spec (processRow oracle)
      (fun r h => by rw [processRow_skip oracle r h]; exact ⟨rfl, rfl⟩)
      (fun r h => processRow_nonskip oracle r h) rows).1,
   fun oracle r m ho hne => processRow_fetch_error oracle r m ho hne,
   fun oracle rows => ⟨_, rfl⟩,
   fun oracle e => rfl⟩

/-- Witness for C9: a row whose fetch raises `timed out` produces a
Failure record carrying `"Ошибка: timed out"`. -/
theorem claim9_witness :
    (processRow (fun _ => .error "timed out".data)
        ⟨"u".data, "x".data⟩).record =
      some (.err (pyStrip "u".data) (errText "timed out".data)) :=
  claim9_per_url_errors_contained.2.1 _ _ _ rfl (by decide)

/-- Claim C10: the fetch-and-extract operation is total — its body never
raises, returning either the post-processed page text or an in-band
string starting with `"Ошибка"` — and consequently a successfully
fetched page whose extracted text itself starts with `"Ошибка"` is
recorded as a Failure record. -/
theorem claim10_fetch_total_and_in_band :
    (∀ (att : Nat → Except Txt Txt) (n : Nat), ∃ t, fetchBody att n = .ok t) ∧
    (∀ (oracle : Txt → Except Txt Txt) (url page : Txt),
      oracle url = .ok page →
      extract_text_from_url oracle url = postprocessPage page) ∧
    (∀ (oracle : Txt → Except Txt Txt) (url m : Txt),
      oracle url = .error m →
      extract_text_from_url oracle url = errText m ∧
        errMarker.isPrefixOf (errText m) = true) ∧
    (∀ (oracle : Txt → Except Txt Txt) (r : RowInput) (page : Txt),
      oracle (pyStrip r.url) = .ok page →
      errMarker.isPrefixOf (postprocessPage page) = true →
      (pyStrip r.lib_text).isEmpty = false →
      (processRow oracle r).record =
        some (.err (pyStrip r.url) (postprocessPage page))) :=
  ⟨fetchBody_never_raises,
   extract_of_ok,
   fun oracle url m h =>
     ⟨extract_of_error oracle url m h, errMarker_isPrefixOf_errText m⟩,
   processRow_marker_page⟩

/-- Witness for C10: a page whose genuine text is
`"Ошибка 404. Страница не найдена."` is fetched successfully, yet the
row is recorded as a Failure because the text starts with the in-band
marker. -/
theorem claim10_witness :
    errMarker.isPrefixOf
      (postprocessPage "Ошибка 404. Страница не найдена.".data) = true ∧
    (processRow (fun _ => .ok "Ошибка 404. Страница не найдена.".data)
        ⟨"u".data, "x".data⟩).record =
      some (.err (pyStrip "u".data)
        (postprocessPage "Ошибка 404. Страница не найдена.".data)) :=
  ⟨by decide,
   claim10_fetch_total_and_in_band.2.2.2 _ _ _ rfl (by decide) (by decide)⟩

end App
